import Mathlib

/-!
Verification of the TaskHub backend (backend/main.go): a Gin HTTP service over
a single SQLite table of tasks. The embedding models the SQLite table state,
the six request handlers, the CORS middleware and database initialization, and
proves the specified CRUD properties against them.
-/

namespace TaskHub

/-- The Task struct of main.go, which is also the row shape of the tasks table
(SELECT id, title, description, status, created_at). -/
structure Task where
  id          : Nat
  title       : String
  description : String
  status      : String
  created_at  : String
  deriving Repr, DecidableEq

/-- The settings object parsed from config.yaml (the fields the handlers and
middleware can observe). -/
structure Config where
  appName        : String
  appVersion     : String
  appPort        : Nat
  appEnvironment : String
  corsEnabled    : Bool
  corsOrigins    : List String
  deriving Repr, DecidableEq

/-- State of the SQLite tasks table. `seq` is the sqlite_sequence entry that
AUTOINCREMENT keeps for the table (the largest id ever assigned; never
decremented, also not on DELETE), and `rows` are the stored rows in rowid
order. -/
structure Db where
  seq  : Nat
  rows : List Task
  deriving Repr, DecidableEq

/-- One INSERT INTO tasks (title, description, status) VALUES (?, ?, ?):
AUTOINCREMENT assigns id seq+1, created_at takes its column default
CURRENT_TIMESTAMP (the clock value `now` passed in), and the pair
(last-insert-id, new table state) is returned. -/
def insertRow (db : Db) (title description status now : String) : Nat × Db :=
  let newId := db.seq + 1
  (newId, ⟨newId, db.rows ++ [⟨newId, title, description, status, now⟩]⟩)

/-- The table state CREATE TABLE IF NOT EXISTS produces on a fresh database
file: no rows, sqlite_sequence at 0. -/
def emptyDb : Db := ⟨0, []⟩

/-- initDatabase of main.go. CREATE TABLE IF NOT EXISTS keeps an existing
table (`some db`) and creates an empty one on a fresh file (`none`). The
seed statement is INSERT OR IGNORE, but the tasks schema has no UNIQUE
constraint the inserted columns could violate (the primary key id is
auto-assigned, title is merely NOT NULL), so the IGNORE conflict clause never
fires and the three seed rows are inserted unconditionally on every call
(verified against SQLite 3: running the statement twice yields six rows). -/
def initDatabase (now : String) (existing : Option Db) : Db :=
  let db0 := existing.getD emptyDb
  let r1 := insertRow db0 "Setup Development Environment"
    "Install and configure development tools" "completed" now
  let r2 := insertRow r1.2 "Create API Documentation"
    "Document all API endpoints and responses" "in_progress" now
  let r3 := insertRow r2.2 "Deploy to Production"
    "Deploy application to production environment" "pending" now
  r3.2

/-- Numeric interpretation SQLite gives the id path parameter: the handlers
bind c.Param("id") as TEXT into `WHERE id = ?`, and comparison against the
INTEGER-affinity id column applies numeric affinity to the text. parseDec
renders the digit-string fragment of that conversion exactly: a digit string
(leading zeros immaterial) converts to its value. Verified against SQLite 3:
id = '0003' matches the row with id 3, id = 'abc' matches nothing. parseDec
returns none on every other string; that rendering is faithful for strings
that are surely not numeric literals (see sqliteDefinitelyText below), while
non-digit-string numeric literals such as '3.0' or ' 3' — which SQLite also
converts and matches — are outside the faithful domain, and every theorem
below that quantifies over segments stays inside it: its hypotheses demand
either parseDec s = some n or sqliteDefinitelyText s = true. -/
def parseDec (s : String) : Option Nat :=
  if s.length = 0 then none
  else if s.data.all Char.isDigit then
    some (s.data.foldl (fun n c => n * 10 + (c.toNat - 48)) 0)
  else none

/-- Whether the bound text id parameter compares equal to a stored integer id
under SQLite affinity conversion, as rendered by parseDec (exact on digit
strings and on surely-non-numeric strings; see parseDec for the scope). -/
def matchRow (idParam : String) (rowId : Nat) : Bool :=
  decide (parseDec idParam = some rowId)

/-- The ASCII whitespace SQLite skips around a candidate numeric literal when
applying numeric affinity to a text value (the isspace set of its text-to-
number conversion): space, tab, newline, vertical tab, form feed, carriage
return. -/
def sqliteSpace (c : Char) : Bool :=
  c == ' ' || c == '\t' || c == '\n' || c == '\u000B' || c == '\u000C' || c == '\r'

/-- Characters that can appear in a well-formed SQLite integer or real
literal once surrounding whitespace is stripped: digits, a sign, the decimal
point, and the exponent marker. -/
def numericLiteralChar (c : Char) : Bool :=
  c.isDigit || c == '+' || c == '-' || c == '.' || c == 'e' || c == 'E'

/-- The candidate literal SQLite inspects: the text with its surrounding
whitespace removed. -/
def trimSqliteSpace (s : String) : List Char :=
  ((s.data.dropWhile sqliteSpace).reverse.dropWhile sqliteSpace).reverse

/-- Sound test that a text value surely keeps TEXT storage class under
SQLite numeric affinity, so that `WHERE id = ?` matches no row: every
well-formed integer or real literal consists, after stripping surrounding
whitespace, of a nonempty run of numericLiteralChar characters, so a string
that trims to empty or contains any other character is not converted, and a
TEXT value never compares equal to an INTEGER id (verified against SQLite 3:
id = 'abc' matches nothing). The test is a necessary condition only: strings
made of these characters that are not plain digit strings (such as '3.0',
which SQLite does convert and match) fail it and fall outside the scope of
the theorems below. -/
def sqliteDefinitelyText (s : String) : Bool :=
  (trimSqliteSpace s).isEmpty || (trimSqliteSpace s).any (fun c => ! numericLiteralChar c)

/-- SELECT ... FROM tasks WHERE id = ? with the text parameter: the first (in
a well-formed table, the only) row whose id matches. -/
def findByParam (db : Db) (idParam : String) : Option Task :=
  db.rows.find? (fun r => matchRow idParam r.id)

/-- A response body as the handlers produce it: AbortWithStatus leaves it
empty; c.JSON of a nil Go slice marshals to JSON null, of a non-nil slice to
an array, of a Task to its object; gin.H one-key objects carry an error or a
message string; the health body carries its three fields. -/
inductive Body where
  | empty
  | null
  | arr (tasks : List Task)
  | obj (t : Task)
  | errMsg (message : String)
  | okMsg (message : String)
  | health (status version timestamp : String)
  deriving Repr, DecidableEq

/-- Comparison ORDER BY id DESC sorts by: a comes no later than b when a has
the larger (or equal) id. -/
def taskGE (a b : Task) : Prop := b.id ≤ a.id

instance : DecidableRel taskGE := fun a b => Nat.decLe b.id a.id

instance : IsTotal Task taskGE := ⟨fun a b => Nat.le_total b.id a.id⟩

instance : IsTrans Task taskGE := ⟨fun _ _ _ h1 h2 => Nat.le_trans h2 h1⟩

/-- Row order produced by ORDER BY id DESC. -/
def orderByIdDesc (rows : List Task) : List Task :=
  rows.insertionSort taskGE

/-- The Go handler accumulates rows with append into `var tasks []Task`, which
stays the nil slice when the result set is empty; encoding/json marshals a nil
slice to JSON null and a non-nil slice to a JSON array. -/
def marshalTaskSlice (tasks : List Task) : Body :=
  if tasks.isEmpty then Body.null else Body.arr tasks

/-- getTasks of main.go: SELECT all rows ORDER BY id DESC, marshal the
accumulated slice with status 200. -/
def getTasks (db : Db) : Nat × Body :=
  (200, marshalTaskSlice (orderByIdDesc db.rows))

/-- createTask of main.go: default an empty bound status to pending, INSERT
the three fields, read back created_at of the last-insert-id, respond 201 with
the task carrying the assigned id and stored created_at. -/
def createTask (db : Db) (now : String) (body : Task) : (Nat × Body) × Db :=
  let st := if body.status = "" then "pending" else body.status
  let ins := insertRow db body.title body.description st now
  match (ins.2.rows.find? (fun r => decide (r.id = ins.1))).map Task.created_at with
  | some ca => ((201, Body.obj ⟨ins.1, body.title, body.description, st, ca⟩), ins.2)
  | none => ((500, Body.errMsg "sql: no rows in result set"), ins.2)

/-- getTask of main.go: SELECT by the text id parameter; ErrNoRows becomes 404
with the fixed message, otherwise 200 with the row. -/
def getTask (db : Db) (idParam : String) : Nat × Body :=
  match findByParam db idParam with
  | some t => (200, Body.obj t)
  | none => (404, Body.errMsg "Task not found")

/-- Effect of UPDATE tasks SET title = ?, description = ?, status = ? WHERE
id = ? on one row: a matching row gets the three bound columns overwritten (id
and created_at untouched), any other row is unchanged. -/
def updRow (idParam : String) (body : Task) (r : Task) : Task :=
  if matchRow idParam r.id then
    { r with title := body.title, description := body.description, status := body.status }
  else r

/-- updateTask of main.go: run the UPDATE, then branch on RowsAffected; on
zero respond 404 with the fixed message, otherwise re-SELECT the row
(overwriting the bound id and created_at with the stored values) and respond
200 with it. -/
def updateTask (db : Db) (idParam : String) (body : Task) : (Nat × Body) × Db :=
  let affected := db.rows.countP (fun r => matchRow idParam r.id)
  let db1 : Db := ⟨db.seq, db.rows.map (updRow idParam body)⟩
  if affected = 0 then ((404, Body.errMsg "Task not found"), db1)
  else
    match findByParam db1 idParam with
    | some t => ((200, Body.obj t), db1)
    | none => ((500, Body.errMsg "sql: no rows in result set"), db1)

/-- deleteTask of main.go: DELETE the matching rows, then branch on
RowsAffected; zero gives 404 with the fixed message, otherwise 200 with the
confirmation message. -/
def deleteTask (db : Db) (idParam : String) : (Nat × Body) × Db :=
  let affected := db.rows.countP (fun r => matchRow idParam r.id)
  let db1 : Db := ⟨db.seq, db.rows.filter (fun r => ! matchRow idParam r.id)⟩
  if affected = 0 then ((404, Body.errMsg "Task not found"), db1)
  else ((200, Body.okMsg "Task deleted successfully"), db1)

/-- Value of c.Request.Context().Value("timestamp") in healthCheck: no
middleware or caller ever stores a value under this key in the request
context, so the lookup yields the nil interface value. -/
def requestContextTimestamp : Option Nat := none

/-- fmt.Sprintf with verb %d: an integer prints in decimal, the nil interface
value prints as the bad-verb text. -/
def sprintfPercentD : Option Nat → String
  | some n => Nat.repr n
  | none => "%!d(<nil>)"

/-- healthCheck of main.go: 200 with the literal status, the configured
version, and the %d-formatting of the request-context timestamp value. -/
def healthCheck (cfg : Config) : Nat × Body :=
  (200, Body.health "healthy" cfg.appVersion (sprintfPercentD requestContextTimestamp))

/-- The three response headers corsMiddleware sets on every request. -/
structure CorsHeaders where
  allowOrigin  : String
  allowMethods : String
  allowHeaders : String
  deriving Repr, DecidableEq

/-- What the middleware does after setting headers: abort with a status and an
empty body, or pass the request on to the routed handler. -/
inductive CorsOutcome where
  | shortCircuit (status : Nat)
  | forward
  deriving Repr, DecidableEq

/-- corsMiddleware of main.go: unconditionally set the three headers (the
wildcard origin, never the configured origin list), then abort OPTIONS
requests with 204 and forward everything else. -/
def corsMiddleware (cfg : Config) (method : String) : CorsHeaders × CorsOutcome :=
  let hs : CorsHeaders := ⟨"*", "GET, POST, PUT, DELETE, OPTIONS", "Content-Type, Authorization"⟩
  if method = "OPTIONS" then (hs, CorsOutcome.shortCircuit 204) else (hs, CorsOutcome.forward)

/-- A request passing through the middleware chain: on shortCircuit the routed
handler never runs (state untouched, body empty), otherwise the handler
produces the response and the next state. -/
def runWithCors (cfg : Config) (method : String) (handler : Db → (Nat × Body) × Db)
    (db : Db) : CorsHeaders × ((Nat × Body) × Db) :=
  match corsMiddleware cfg method with
  | (hs, CorsOutcome.shortCircuit st) => (hs, ((st, Body.empty), db))
  | (hs, CorsOutcome.forward) => (hs, handler db)

/-- One state-changing API call, for reasoning about request sequences. -/
inductive Op where
  | create (now : String) (body : Task)
  | update (idParam : String) (body : Task)
  | delete (idParam : String)
  deriving Repr, DecidableEq

/-- State effect of one call. -/
def applyOp (db : Db) : Op → Db
  | Op.create now body => (createTask db now body).2
  | Op.update idParam body => (updateTask db idParam body).2
  | Op.delete idParam => (deleteTask db idParam).2

/-- State after a sequence of calls. -/
def runOps (db : Db) (ops : List Op) : Db := ops.foldl applyOp db

/-- Well-formedness of a table state, as SQLite maintains it: every stored id
is positive and at most the sequence value, and ids are pairwise distinct (the
primary key). -/
def Wf (db : Db) : Prop :=
  (∀ t ∈ db.rows, 0 < t.id ∧ t.id ≤ db.seq) ∧ db.rows.Pairwise (fun a b => a.id ≠ b.id)

instance (db : Db) : Decidable (Wf db) := by
  unfold Wf; infer_instance

/-! ### Helper lemmas about id matching -/

theorem matchRow_iff (s : String) (i : Nat) : matchRow s i = true ↔ parseDec s = some i :=
  decide_eq_true_iff

theorem matchRow_eq_iff {s : String} {n : Nat} (hs : parseDec s = some n) (i : Nat) :
    matchRow s i = true ↔ i = n := by
  rw [matchRow_iff, hs]
  exact ⟨fun h => (Option.some_inj.mp h).symm, fun h => by rw [h]⟩

theorem matchRow_false_of_none {s : String} (hs : parseDec s = none) (i : Nat) :
    matchRow s i = false := by
  simp [matchRow, hs]

theorem not_digit_of_sqliteSpace {c : Char} (h : sqliteSpace c = true) :
    c.isDigit = false := by
  unfold sqliteSpace at h
  simp only [Bool.or_eq_true, beq_iff_eq] at h
  rcases h with ((((rfl | rfl) | rfl) | rfl) | rfl) | rfl <;> decide

theorem sqliteSpace_eq_false_of_isDigit {c : Char} (h : c.isDigit = true) :
    sqliteSpace c = false := by
  cases hs : sqliteSpace c with
  | false => rfl
  | true => rw [not_digit_of_sqliteSpace hs] at h; cases h

theorem numericLiteralChar_of_isDigit {c : Char} (h : c.isDigit = true) :
    numericLiteralChar c = true := by
  unfold numericLiteralChar
  rw [h]
  rfl

theorem dropWhile_sqliteSpace_eq_self {l : List Char}
    (h : ∀ c ∈ l, sqliteSpace c = false) : l.dropWhile sqliteSpace = l := by
  cases l with
  | nil => rfl
  | cons a t =>
    rw [List.dropWhile_cons, h a (List.mem_cons_self a t)]
    rfl

theorem trimSqliteSpace_of_digits {s : String}
    (hd : ∀ c ∈ s.data, c.isDigit = true) : trimSqliteSpace s = s.data := by
  have hns : ∀ c ∈ s.data, sqliteSpace c = false := fun c hc =>
    sqliteSpace_eq_false_of_isDigit (hd c hc)
  unfold trimSqliteSpace
  rw [dropWhile_sqliteSpace_eq_self hns,
    dropWhile_sqliteSpace_eq_self (fun c hc => hns c (List.mem_reverse.mp hc)),
    List.reverse_reverse]

theorem parseDec_eq_none_of_definitelyText {s : String}
    (h : sqliteDefinitelyText s = true) : parseDec s = none := by
  unfold parseDec
  by_cases h0 : s.length = 0
  · rw [if_pos h0]
  · rw [if_neg h0]
    by_cases hdig : s.data.all Char.isDigit = true
    · exfalso
      have hd : ∀ c ∈ s.data, c.isDigit = true := List.all_eq_true.mp hdig
      unfold sqliteDefinitelyText at h
      rw [trimSqliteSpace_of_digits hd] at h
      rcases (Bool.or_eq_true _ _).mp h with he | ha
      · have : s.data = [] := List.isEmpty_iff.mp he
        exact h0 (by simp [String.length, this])
      · obtain ⟨c, hc, hcf⟩ := List.any_eq_true.mp ha
        rw [numericLiteralChar_of_isDigit (hd c hc)] at hcf
        cases hcf
    · rw [if_neg hdig]

theorem matchRow_false_of_definitelyText {s : String}
    (h : sqliteDefinitelyText s = true) (i : Nat) : matchRow s i = false :=
  matchRow_false_of_none (parseDec_eq_none_of_definitelyText h) i

theorem find?_matchRow_eq_none {rows : List Task} {s : String} {n : Nat}
    (hs : parseDec s = some n) (h : ∀ t ∈ rows, t.id ≠ n) :
    rows.find? (fun r => matchRow s r.id) = none := by
  rw [List.find?_eq_none]
  intro x hx
  simp only [matchRow_eq_iff hs]
  exact h x hx

theorem countP_matchRow_eq_zero {rows : List Task} {s : String}
    (h : ∀ t ∈ rows, matchRow s t.id = false) :
    rows.countP (fun r => matchRow s r.id) = 0 :=
  List.countP_eq_zero.mpr (fun a ha => by simp [h a ha])

theorem countP_matchRow_ne_zero {rows : List Task} {s : String} {n : Nat} {t0 : Task}
    (hs : parseDec s = some n) (hmem : t0 ∈ rows) (hid : t0.id = n) :
    rows.countP (fun r => matchRow s r.id) ≠ 0 := by
  intro h0
  exact List.countP_eq_zero.mp h0 t0 hmem ((matchRow_eq_iff hs _).mpr hid)

/-! ### Helper lemmas about the handlers' state effects -/

theorem createTask_snd (db : Db) (now : String) (b : Task) :
    (createTask db now b).2 =
      (insertRow db b.title b.description (if b.status = "" then "pending" else b.status) now).2 := by
  unfold createTask
  dsimp only
  split <;> rfl

theorem updateTask_snd (db : Db) (s : String) (b : Task) :
    (updateTask db s b).2 = ⟨db.seq, db.rows.map (updRow s b)⟩ := by
  unfold updateTask
  dsimp only
  split
  · rfl
  · split <;> rfl

theorem deleteTask_snd (db : Db) (s : String) :
    (deleteTask db s).2 = ⟨db.seq, db.rows.filter (fun r => ! matchRow s r.id)⟩ := by
  unfold deleteTask
  dsimp only
  split <;> rfl

theorem updRow_id (s : String) (b r : Task) : (updRow s b r).id = r.id := by
  unfold updRow
  split <;> rfl

theorem updRow_of_no_match {s : String} (b : Task) {r : Task}
    (h : matchRow s r.id = false) : updRow s b r = r := by
  simp [updRow, h]

theorem map_updRow_of_no_match {s : String} {b : Task} {rows : List Task}
    (h : ∀ t ∈ rows, matchRow s t.id = false) : rows.map (updRow s b) = rows := by
  induction rows with
  | nil => rfl
  | cons a rest ih =>
    rw [List.map_cons, updRow_of_no_match b (h a (List.mem_cons_self a rest)),
      ih (fun t ht => h t (List.mem_cons_of_mem a ht))]

theorem filter_of_no_match {s : String} {rows : List Task}
    (h : ∀ t ∈ rows, matchRow s t.id = false) :
    rows.filter (fun r => ! matchRow s r.id) = rows :=
  List.filter_eq_self.mpr (fun a ha => by simp [h a ha])

theorem createTask_eq (db : Db) (now : String) (b : Task) (h : Wf db) :
    createTask db now b =
      ((201, Body.obj ⟨db.seq + 1, b.title, b.description,
        (if b.status = "" then "pending" else b.status), now⟩),
       ⟨db.seq + 1, db.rows ++ [⟨db.seq + 1, b.title, b.description,
        (if b.status = "" then "pending" else b.status), now⟩]⟩) := by
  have hnone : db.rows.find? (fun r => decide (r.id = db.seq + 1)) = none := by
    rw [List.find?_eq_none]
    intro x hx
    have hle := (h.1 x hx).2
    simp only [decide_eq_true_iff]
    omega
  unfold createTask insertRow
  dsimp only
  rw [List.find?_append, hnone]
  rw [List.find?_cons_of_pos _ (by simp)]
  rfl

theorem find?_map_updRow {s : String} {n : Nat} (b : Task) (hs : parseDec s = some n) :
    ∀ (rows : List Task) (t0 : Task), List.Pairwise (fun a c => a.id ≠ c.id) rows →
      t0 ∈ rows → t0.id = n →
      (rows.map (updRow s b)).find? (fun r => matchRow s r.id) =
        some ⟨t0.id, b.title, b.description, b.status, t0.created_at⟩ := by
  intro rows
  induction rows with
  | nil => intro t0 _ ht _; cases ht
  | cons a rest ih =>
    intro t0 hp hmem hid
    rcases List.mem_cons.mp hmem with rfl | hmem2
    · have hm : matchRow s t0.id = true := (matchRow_eq_iff hs _).mpr hid
      rw [List.map_cons,
        List.find?_cons_of_pos _ (by rw [updRow_id]; exact hm)]
      simp [updRow, hm]
    · have hane : a.id ≠ t0.id := (List.pairwise_cons.mp hp).1 t0 hmem2
      have ham : matchRow s a.id = false := by
        rw [← Bool.not_eq_true, matchRow_eq_iff hs]
        omega
      rw [List.map_cons,
        List.find?_cons_of_neg _ (by rw [updRow_id, ham]; simp)]
      exact ih t0 (List.pairwise_cons.mp hp).2 hmem2 hid

/-! ### Preservation of well-formedness and monotonicity of the id sequence -/

theorem wf_insertRow {db : Db} (h : Wf db) (tl ds st now : String) :
    Wf (insertRow db tl ds st now).2 := by
  dsimp only [insertRow]
  constructor
  · intro t ht
    rcases List.mem_append.mp ht with h1 | h2
    · have := h.1 t h1
      show 0 < t.id ∧ t.id ≤ db.seq + 1
      omega
    · rcases List.mem_singleton.mp h2 with rfl
      show 0 < db.seq + 1 ∧ db.seq + 1 ≤ db.seq + 1
      omega
  · rw [List.pairwise_append]
    refine ⟨h.2, List.pairwise_singleton _ _, ?_⟩
    intro a ha b hb
    rcases List.mem_singleton.mp hb with rfl
    have := (h.1 a ha).2
    dsimp only
    omega

theorem wf_createTask {db : Db} (h : Wf db) (now : String) (b : Task) :
    Wf (createTask db now b).2 := by
  rw [createTask_snd]
  exact wf_insertRow h _ _ _ _

theorem wf_updateTask {db : Db} (h : Wf db) (s : String) (b : Task) :
    Wf (updateTask db s b).2 := by
  rw [updateTask_snd]
  constructor
  · intro t ht
    rcases List.mem_map.mp ht with ⟨r, hr, rfl⟩
    rw [updRow_id]
    exact h.1 r hr
  · rw [List.pairwise_map]
    refine h.2.imp ?_
    intro a c hac
    rwa [updRow_id, updRow_id]

theorem wf_deleteTask {db : Db} (h : Wf db) (s : String) :
    Wf (deleteTask db s).2 := by
  rw [deleteTask_snd]
  constructor
  · intro t ht
    exact h.1 t (List.mem_of_mem_filter ht)
  · exact List.Pairwise.sublist (List.filter_sublist _) h.2

theorem wf_applyOp {db : Db} (h : Wf db) (op : Op) : Wf (applyOp db op) := by
  cases op with
  | create now body => exact wf_createTask h now body
  | update idParam body => exact wf_updateTask h idParam body
  | delete idParam => exact wf_deleteTask h idParam

theorem applyOp_seq_le (db : Db) (op : Op) : db.seq ≤ (applyOp db op).seq := by
  cases op with
  | create now body =>
    show db.seq ≤ ((createTask db now body).2).seq
    rw [createTask_snd]
    exact Nat.le_succ _
  | update idParam body =>
    show db.seq ≤ ((updateTask db idParam body).2).seq
    rw [updateTask_snd]
  | delete idParam =>
    show db.seq ≤ ((deleteTask db idParam).2).seq
    rw [deleteTask_snd]

theorem runOps_seq_le (ops : List Op) : ∀ db : Db, db.seq ≤ (runOps db ops).seq := by
  induction ops with
  | nil => intro db; exact Nat.le_refl _
  | cons op rest ih =>
    intro db
    exact Nat.le_trans (applyOp_seq_le db op) (ih (applyOp db op))

theorem wf_runOps (ops : List Op) : ∀ db : Db, Wf db → Wf (runOps db ops) := by
  induction ops with
  | nil => intro db h; exact h
  | cons op rest ih =>
    intro db h
    exact ih (applyOp db op) (wf_applyOp h op)

/-! ### The claims -/

/-- C1: the claim says initDatabase inserts the three seed rows exactly once
per fresh database and that the guarded insert keeps a repeated boot from
duplicating them. The code violates the re-boot half: INSERT OR IGNORE has no
UNIQUE constraint to conflict with in the tasks schema, so a fresh database
does get exactly the three seed rows, but initializing again over the
already-seeded database inserts all three again — six rows, with the Deploy
to Production seed title now stored twice, so the row multiset changed. -/
theorem claim_C1_seed_rows_duplicated_on_reboot :
    (initDatabase "t0" none).rows.length = 3 ∧
    (initDatabase "t1" (some (initDatabase "t0" none))).rows.length = 6 ∧
    (initDatabase "t1" (some (initDatabase "t0" none))).rows.countP
      (fun t => decide (t.title = "Deploy to Production")) = 2 := by
  decide

/-- C2 counterexample: on an empty table the List handler succeeds with 200
but its body is JSON null — the Go slice accumulator stays nil and marshals
to null — not the empty JSON array the claim states. -/
theorem claim_C2_counterexample :
    getTasks emptyDb = (200, Body.null) ∧ Body.null ≠ Body.arr [] := by
  decide

/-- C2 (amended): the List operation always returns 200 and never an error;
the returned rows are exactly the stored rows (a permutation of them) in
descending id order; but when no rows exist the body is JSON null (the nil
slice marshalled by encoding/json), not an empty JSON array, and the body is
null exactly in the empty case. -/
theorem claim_C2_list_all_rows_desc (db : Db) :
    (getTasks db).1 = 200 ∧
    ((getTasks db).2 = Body.null ↔ db.rows = []) ∧
    (db.rows ≠ [] → (getTasks db).2 = Body.arr (orderByIdDesc db.rows)) ∧
    (orderByIdDesc db.rows).Perm db.rows ∧
    List.Sorted taskGE (orderByIdDesc db.rows) := by
  have hperm : (orderByIdDesc db.rows).Perm db.rows := List.perm_insertionSort _ _
  have hsort : List.Sorted taskGE (orderByIdDesc db.rows) := List.sorted_insertionSort _ _
  have hnil : orderByIdDesc db.rows = [] ↔ db.rows = [] := by
    rw [← List.length_eq_zero, ← List.length_eq_zero, hperm.length_eq]
  refine ⟨rfl, ?_, ?_, hperm, hsort⟩
  · show marshalTaskSlice (orderByIdDesc db.rows) = Body.null ↔ db.rows = []
    by_cases hr : db.rows = []
    · rw [hr]
      simp [marshalTaskSlice, orderByIdDesc]
    · simp [marshalTaskSlice, List.isEmpty_iff, hnil, hr]
  · intro hne
    show marshalTaskSlice (orderByIdDesc db.rows) = Body.arr (orderByIdDesc db.rows)
    simp [marshalTaskSlice, List.isEmpty_iff, hnil, hne]

/-- Witness for C2 (amended): on the freshly seeded database the List
response is 200 with the array of the three seed rows in descending id
order. -/
theorem claim_C2_list_all_rows_desc_witness :
    (getTasks (initDatabase "t0" none)).1 = 200 ∧
    (getTasks (initDatabase "t0" none)).2 =
      Body.arr (orderByIdDesc (initDatabase "t0" none).rows) := by
  have h := claim_C2_list_all_rows_desc (initDatabase "t0" none)
  exact ⟨h.1, h.2.2.1 (by decide)⟩

/-- C3: the claim says every Health response is 200 with status healthy, the
configured version, and a timestamp, never failing. The code does always
answer 200 with status healthy and the configured version — but the
timestamp field never holds a timestamp: the handler formats the request
context value under the key timestamp, which nothing ever sets, so %d applied
to the nil interface yields the constant garbage text instead. -/
theorem claim_C3_health_timestamp_is_nil_format (cfg : Config) :
    healthCheck cfg = (200, Body.health "healthy" cfg.appVersion "%!d(<nil>)") := rfl

/-- C8: an OPTIONS request is short-circuited by the CORS middleware with an
empty 204 response whose Access-Control-Allow-Origin header is the wildcard,
for every settings object (in particular whatever the configured CORS origin
list is) and every routed handler, which is never invoked: the stored state
is returned untouched and the body is empty. -/
theorem claim_C8_options_preflight_short_circuit (cfg : Config) (db : Db)
    (handler : Db → (Nat × Body) × Db) :
    runWithCors cfg "OPTIONS" handler db =
      (⟨"*", "GET, POST, PUT, DELETE, OPTIONS", "Content-Type, Authorization"⟩,
       ((204, Body.empty), db)) := rfl

/-- C10 counterexample: the claim says every id path segment that is not the
decimal representation of a stored task's id yields 404. On the seeded
database the stored decimal representations are 1, 2, 3; the segment 0003 is
not among them, yet Get returns 200 with task 3, because SQLite applies
numeric affinity to the bound text before comparing it with the INTEGER id
column. -/
theorem claim_C10_counterexample :
    getTask (initDatabase "t0" none) "0003" =
      (200, Body.obj ⟨3, "Deploy to Production",
        "Deploy application to production environment", "pending", "t0"⟩) ∧
    (initDatabase "t0" none).rows.map (fun t => Nat.repr t.id) = ["1", "2", "3"] ∧
    ¬ ("0003" ∈ (initDatabase "t0" none).rows.map (fun t => Nat.repr t.id)) := by
  decide

/-- C10 (amended): for every id path segment that matches no stored task's id
under SQLite's numeric affinity conversion — asserted here on the two regions
where the embedding renders that conversion exactly: a segment that is surely
not a numeric literal (after stripping surrounding whitespace it is empty or
contains a character no well-formed integer or real literal can contain, as
every non-numeric string such as abc does), or a digit-string segment whose
value is no stored task's id — Get, Update and Delete all take the not-found
branch: 404 with the fixed message and the stored state unchanged. A segment
that converts numerically to a stored id without being its canonical decimal
representation, such as 0003 for id 3, instead reaches that row (see the
counterexample); non-digit-string literals that SQLite also converts, such as
3.0, likewise reach their row and are outside the scope asserted here. -/
theorem claim_C10_unmatched_segment_404 (db : Db) (s : String) (b : Task)
    (h : sqliteDefinitelyText s = true ∨
      (∃ n, parseDec s = some n ∧ ∀ t ∈ db.rows, t.id ≠ n)) :
    getTask db s = (404, Body.errMsg "Task not found") ∧
    deleteTask db s = ((404, Body.errMsg "Task not found"), db) ∧
    updateTask db s b = ((404, Body.errMsg "Task not found"), db) := by
  have hm : ∀ t ∈ db.rows, matchRow s t.id = false := by
    rcases h with htxt | ⟨n, hs, hno⟩
    · exact fun t _ => matchRow_false_of_definitelyText htxt t.id
    · intro t ht
      rw [← Bool.not_eq_true, matchRow_eq_iff hs]
      exact hno t ht
  have hfind : db.rows.find? (fun r => matchRow s r.id) = none :=
    List.find?_eq_none.mpr (fun x hx => by simp [hm x hx])
  have hcount := countP_matchRow_eq_zero hm
  refine ⟨?_, ?_, ?_⟩
  · unfold getTask findByParam
    rw [hfind]
  · unfold deleteTask
    dsimp only
    rw [if_pos hcount, filter_of_no_match hm]
  · unfold updateTask
    dsimp only
    rw [if_pos hcount, map_updRow_of_no_match hm]

/-- Witness for C10 (amended), exercising both regions of the hypothesis: the
non-numeric segment abc on the seeded database gives 404 on Get and a 404
Delete that leaves the database as it was, and the digit segment 99, whose
value is stored nowhere, also gives 404 on Get. -/
theorem claim_C10_unmatched_segment_404_witness :
    getTask (initDatabase "t0" none) "abc" = (404, Body.errMsg "Task not found") ∧
    deleteTask (initDatabase "t0" none) "abc" =
      ((404, Body.errMsg "Task not found"), initDatabase "t0" none) ∧
    getTask (initDatabase "t0" none) "99" = (404, Body.errMsg "Task not found") := by
  have h1 := claim_C10_unmatched_segment_404 (initDatabase "t0" none) "abc"
    ⟨0, "a", "b", "c", "d"⟩ (Or.inl (by decide))
  have h2 := claim_C10_unmatched_segment_404 (initDatabase "t0" none) "99"
    ⟨0, "a", "b", "c", "d"⟩ (Or.inr ⟨99, by decide, by decide⟩)
  exact ⟨h1.1, h1.2.1, h2.1⟩

/-- C4: status defaulting is applied only on Create. A Create whose bound
status is the empty string responds with and stores status pending (the
response task and the last stored row show the defaulted value, and a
non-empty status is kept as supplied); an Update performs no defaulting:
every row it leaves in the table either carries the supplied status string
verbatim — including the empty string — or is an untouched original row, and
any task object a 200 Update returns carries the supplied status verbatim. -/
theorem claim_C4_status_default_create_only (db : Db) (now : String) (b bu : Task)
    (idParam : String) (h : Wf db) :
    (createTask db now b).1.2 = Body.obj ⟨db.seq + 1, b.title, b.description,
      (if b.status = "" then "pending" else b.status), now⟩ ∧
    (b.status = "" → (createTask db now b).2.rows.getLast? =
      some ⟨db.seq + 1, b.title, b.description, "pending", now⟩) ∧
    (∀ u ∈ (updateTask db idParam bu).2.rows, u.status = bu.status ∨ u ∈ db.rows) ∧
    (∀ t : Task, (updateTask db idParam bu).1.2 = Body.obj t → t.status = bu.status) := by
  have hc := createTask_eq db now b h
  refine ⟨by rw [hc], ?_, ?_, ?_⟩
  · intro hb
    rw [createTask_snd]
    dsimp only [insertRow]
    rw [List.getLast?_append, hb]
    rfl
  · intro u hu
    rw [updateTask_snd] at hu
    rcases List.mem_map.mp hu with ⟨r, hr, rfl⟩
    unfold updRow
    split
    · left; rfl
    · right; exact hr
  · intro t ht
    unfold updateTask at ht
    dsimp only at ht
    by_cases h0 : db.rows.countP (fun r => matchRow idParam r.id) = 0
    · rw [if_pos h0] at ht
      simp at ht
    · rw [if_neg h0] at ht
      cases hy : findByParam ⟨db.seq, db.rows.map (updRow idParam bu)⟩ idParam with
      | none => rw [hy] at ht; simp at ht
      | some x =>
        rw [hy] at ht
        simp only [] at ht
        have hx : x = t := by
          have : Body.obj x = Body.obj t := ht
          cases this; rfl
        subst hx
        unfold findByParam at hy
        have hpx := List.find?_some hy
        rcases List.mem_map.mp (List.mem_of_find?_eq_some hy) with ⟨r, _, rfl⟩
        rw [updRow_id] at hpx
        simp [updRow, hpx]

/-- Witness for C4: on the seeded database, creating with empty status stores
and returns pending, and an Update that supplies the empty status persists it
verbatim on the task it returns. -/
theorem claim_C4_status_default_create_only_witness :
    (createTask (initDatabase "t0" none) "t1" ⟨0, "a", "b", "", "c"⟩).1.2 =
      Body.obj ⟨4, "a", "b", "pending", "t1"⟩ ∧
    (Task.mk 2 "x" "y" "" "t0").status = "" := by
  have h := claim_C4_status_default_create_only (initDatabase "t0" none) "t1"
    ⟨0, "a", "b", "", "c"⟩ ⟨0, "x", "y", "", "z"⟩ "2" (by decide)
  exact ⟨h.1.trans (by decide), h.2.2.2 ⟨2, "x", "y", "", "t0"⟩ (by decide)⟩

/-- C5: for every id n (reached through any decimal segment s parsing to n),
Get, Update and Delete answer 404 with the fixed message Task not found
exactly when no stored task has id n; a 404 Delete or Update leaves the
stored state unchanged; and a Get of the same id after a Delete of it always
answers 404 (in particular after a successful Delete). -/
theorem claim_C5_not_found_404 (db : Db) (s : String) (n : Nat) (b : Task)
    (hs : parseDec s = some n) :
    (getTask db s = (404, Body.errMsg "Task not found") ↔ ∀ t ∈ db.rows, t.id ≠ n) ∧
    ((deleteTask db s).1 = (404, Body.errMsg "Task not found") ↔ ∀ t ∈ db.rows, t.id ≠ n) ∧
    ((updateTask db s b).1 = (404, Body.errMsg "Task not found") ↔ ∀ t ∈ db.rows, t.id ≠ n) ∧
    ((∀ t ∈ db.rows, t.id ≠ n) → (deleteTask db s).2 = db ∧ (updateTask db s b).2 = db) ∧
    getTask (deleteTask db s).2 s = (404, Body.errMsg "Task not found") := by
  have hmain : (db.rows.find? (fun r => matchRow s r.id) = none) ↔
      (∀ t ∈ db.rows, t.id ≠ n) := by
    rw [List.find?_eq_none]
    constructor
    · intro hf t ht hid
      exact hf t ht ((matchRow_eq_iff hs _).mpr hid)
    · intro hno t ht
      simp only [matchRow_eq_iff hs]
      exact hno t ht
  have hafter : getTask (deleteTask db s).2 s = (404, Body.errMsg "Task not found") := by
    have hfilter : ((deleteTask db s).2).rows.find? (fun r => matchRow s r.id) = none := by
      rw [deleteTask_snd, List.find?_eq_none]
      intro x hx
      have hb := List.of_mem_filter hx
      simp only [Bool.not_eq_true'] at hb
      simp [hb]
    unfold getTask findByParam
    rw [hfilter]
  by_cases hall : ∀ t ∈ db.rows, t.id ≠ n
  · have hf : db.rows.find? (fun r => matchRow s r.id) = none := hmain.mpr hall
    have hmatch : ∀ t ∈ db.rows, matchRow s t.id = false := fun t ht => by
      rw [← Bool.not_eq_true, matchRow_eq_iff hs]
      exact hall t ht
    have hcz := countP_matchRow_eq_zero hmatch
    have hget : getTask db s = (404, Body.errMsg "Task not found") := by
      unfold getTask findByParam
      rw [hf]
    have hdel : deleteTask db s = ((404, Body.errMsg "Task not found"), db) := by
      unfold deleteTask
      dsimp only
      rw [if_pos hcz, filter_of_no_match hmatch]
    have hupd : updateTask db s b = ((404, Body.errMsg "Task not found"), db) := by
      unfold updateTask
      dsimp only
      rw [if_pos hcz, map_updRow_of_no_match hmatch]
    exact ⟨iff_of_true hget hall, iff_of_true (by rw [hdel]) hall,
      iff_of_true (by rw [hupd]) hall,
      fun _ => ⟨by rw [hdel], by rw [hupd]⟩, hafter⟩
  · have hex : ∃ t0 ∈ db.rows, t0.id = n := by
      push_neg at hall
      exact hall
    obtain ⟨t0, ht0, hid0⟩ := hex
    have hc : db.rows.countP (fun r => matchRow s r.id) ≠ 0 :=
      countP_matchRow_ne_zero hs ht0 hid0
    have hgetne : getTask db s ≠ (404, Body.errMsg "Task not found") := by
      cases hf : db.rows.find? (fun r => matchRow s r.id) with
      | none => exact absurd (hmain.mp hf) hall
      | some x =>
        unfold getTask findByParam
        rw [hf]
        simp
    have hdelne : (deleteTask db s).1 ≠ (404, Body.errMsg "Task not found") := by
      unfold deleteTask
      dsimp only
      rw [if_neg hc]
      simp
    have hupdne : (updateTask db s b).1 ≠ (404, Body.errMsg "Task not found") := by
      unfold updateTask
      dsimp only
      rw [if_neg hc]
      cases hy : findByParam ⟨db.seq, db.rows.map (updRow s b)⟩ s <;> simp
    exact ⟨iff_of_false hgetne hall, iff_of_false hdelne hall,
      iff_of_false hupdne hall, fun hk => absurd hk hall, hafter⟩

/-- Witness for C5: id 9 is stored nowhere in the seeded database, so Get
answers 404 with the fixed message and a Delete of it leaves the database
unchanged; and Get after Delete of id 1 answers 404. -/
theorem claim_C5_not_found_404_witness :
    getTask (initDatabase "t0" none) "9" = (404, Body.errMsg "Task not found") ∧
    (deleteTask (initDatabase "t0" none) "9").2 = initDatabase "t0" none ∧
    getTask (deleteTask (initDatabase "t0" none) "9").2 "9" =
      (404, Body.errMsg "Task not found") := by
  have h := claim_C5_not_found_404 (initDatabase "t0" none) "9" 9
    ⟨0, "a", "b", "c", "d"⟩ (by decide)
  exact ⟨h.1.mpr (by decide), (h.2.2.2.1 (by decide)).1, h.2.2.2.2⟩

/-- C6: a successful Update of an existing task overwrites exactly the three
mutable fields: the 200 response carries the stored id and created_at
unchanged together with the new title, description and status; the updated
row as stored does too; the sequence counter is untouched; and every row with
a different id is preserved in both directions. -/
theorem claim_C6_update_overwrites_only_mutable (db : Db) (s : String) (n : Nat)
    (b t0 : Task) (h : Wf db) (hs : parseDec s = some n) (ht : t0 ∈ db.rows)
    (hid : t0.id = n) :
    (updateTask db s b).1 =
      (200, Body.obj ⟨t0.id, b.title, b.description, b.status, t0.created_at⟩) ∧
    (updateTask db s b).2.seq = db.seq ∧
    (⟨t0.id, b.title, b.description, b.status, t0.created_at⟩ : Task) ∈
      (updateTask db s b).2.rows ∧
    (∀ u ∈ db.rows, u.id ≠ n → u ∈ (updateTask db s b).2.rows) ∧
    (∀ u ∈ (updateTask db s b).2.rows, u.id ≠ n → u ∈ db.rows) := by
  have hc : db.rows.countP (fun r => matchRow s r.id) ≠ 0 :=
    countP_matchRow_ne_zero hs ht hid
  have hfind := find?_map_updRow b hs db.rows t0 h.2 ht hid
  have hm : matchRow s t0.id = true := (matchRow_eq_iff hs _).mpr hid
  refine ⟨?_, by rw [updateTask_snd], ?_, ?_, ?_⟩
  · unfold updateTask
    dsimp only
    rw [if_neg hc]
    have hfb : findByParam ⟨db.seq, db.rows.map (updRow s b)⟩ s =
        some ⟨t0.id, b.title, b.description, b.status, t0.created_at⟩ := hfind
    rw [hfb]
  · rw [updateTask_snd]
    have he : updRow s b t0 = ⟨t0.id, b.title, b.description, b.status, t0.created_at⟩ := by
      simp [updRow, hm]
    rw [← he]
    exact List.mem_map_of_mem _ ht
  · intro u hu hune
    rw [updateTask_snd]
    have hmf : matchRow s u.id = false := by
      rw [← Bool.not_eq_true, matchRow_eq_iff hs]
      exact hune
    rw [← updRow_of_no_match b hmf]
    exact List.mem_map_of_mem _ hu
  · intro u hu hune
    rw [updateTask_snd] at hu
    rcases List.mem_map.mp hu with ⟨r, hr, rfl⟩
    have hrne : r.id ≠ n := by rwa [updRow_id] at hune
    have hmf : matchRow s r.id = false := by
      rw [← Bool.not_eq_true, matchRow_eq_iff hs]
      exact hrne
    rw [updRow_of_no_match b hmf]
    exact hr

/-- Witness for C6: updating seeded task 2 responds 200 with the new three
fields and the original id 2 and created_at. -/
theorem claim_C6_update_overwrites_only_mutable_witness :
    (updateTask (initDatabase "t0" none) "2" ⟨9, "nt", "nd", "ns", "junk"⟩).1 =
      (200, Body.obj ⟨2, "nt", "nd", "ns", "t0"⟩) := by
  have h := claim_C6_update_overwrites_only_mutable (initDatabase "t0" none) "2" 2
    ⟨9, "nt", "nd", "ns", "junk"⟩
    ⟨2, "Create API Documentation", "Document all API endpoints and responses",
      "in_progress", "t0"⟩
    (by decide) (by decide) (by decide) (by decide)
  exact h.1.trans (by decide)

/-- C7: a Create that succeeds responds 201 with the task carrying the
assigned id, the supplied title and description, the (possibly defaulted)
status, and the stored created_at; an immediately following Get of the
assigned id responds 200 with a task equal in all five fields to the Create
response body. -/
theorem claim_C7_create_then_get_roundtrip (db : Db) (now : String) (b : Task)
    (s : String) (h : Wf db) (hs : parseDec s = some (db.seq + 1)) :
    (createTask db now b).1.1 = 201 ∧
    (createTask db now b).1.2 = Body.obj ⟨db.seq + 1, b.title, b.description,
      (if b.status = "" then "pending" else b.status), now⟩ ∧
    getTask (createTask db now b).2 s =
      (200, Body.obj ⟨db.seq + 1, b.title, b.description,
        (if b.status = "" then "pending" else b.status), now⟩) := by
  have hc := createTask_eq db now b h
  refine ⟨by rw [hc], by rw [hc], ?_⟩
  rw [hc]
  unfold getTask findByParam
  dsimp only
  have hnone : db.rows.find? (fun r => matchRow s r.id) = none :=
    find?_matchRow_eq_none hs (fun t ht => by have := (h.1 t ht).2; omega)
  have hpos : matchRow s (db.seq + 1) = true := (matchRow_eq_iff hs _).mpr rfl
  rw [List.find?_append, hnone]
  simp only [List.find?_cons, Option.none_or, hpos]

/-- Witness for C7: creating Write spec on the seeded database assigns id 4;
the immediate Get of 4 returns the identical task object. -/
theorem claim_C7_create_then_get_roundtrip_witness :
    (createTask (initDatabase "t0" none) "t1" ⟨0, "Write spec", "", "", ""⟩).1.1 = 201 ∧
    getTask (createTask (initDatabase "t0" none) "t1" ⟨0, "Write spec", "", "", ""⟩).2 "4" =
      (200, Body.obj ⟨4, "Write spec", "", "pending", "t1"⟩) := by
  have h := claim_C7_create_then_get_roundtrip (initDatabase "t0" none) "t1"
    ⟨0, "Write spec", "", "", ""⟩ "4" (by decide) (by decide)
  exact ⟨h.1, h.2.2.trans (by decide)⟩

/-- C9: within one database lifetime ids are unique and strictly increasing
in assignment order: starting from any well-formed state, a Create assigns id
seq+1; after any further sequence of Create, Update and Delete calls
(deletions included, so ids of deleted tasks are not reused), a later Create
assigns a strictly larger id, distinct from every id then stored, and
well-formedness — in particular pairwise-distinct stored ids — is preserved
throughout. -/
theorem claim_C9_ids_unique_increasing (db : Db) (now1 now2 : String) (b1 b2 : Task)
    (ops : List Op) (h : Wf db) :
    (createTask db now1 b1).1.2 = Body.obj ⟨db.seq + 1, b1.title, b1.description,
      (if b1.status = "" then "pending" else b1.status), now1⟩ ∧
    (createTask (runOps (createTask db now1 b1).2 ops) now2 b2).1.2 =
      Body.obj ⟨(runOps (createTask db now1 b1).2 ops).seq + 1, b2.title, b2.description,
        (if b2.status = "" then "pending" else b2.status), now2⟩ ∧
    db.seq + 1 < (runOps (createTask db now1 b1).2 ops).seq + 1 ∧
    (∀ t ∈ (runOps (createTask db now1 b1).2 ops).rows,
      t.id ≠ (runOps (createTask db now1 b1).2 ops).seq + 1) ∧
    Wf (runOps (createTask db now1 b1).2 ops) ∧
    Wf (createTask (runOps (createTask db now1 b1).2 ops) now2 b2).2 := by
  have h1 : Wf (createTask db now1 b1).2 := wf_createTask h now1 b1
  have h2 : Wf (runOps (createTask db now1 b1).2 ops) := wf_runOps ops _ h1
  have hseq1 : (createTask db now1 b1).2.seq = db.seq + 1 := by
    rw [createTask_snd]
    rfl
  have hle : db.seq + 1 ≤ (runOps (createTask db now1 b1).2 ops).seq := by
    rw [← hseq1]
    exact runOps_seq_le ops _
  refine ⟨by rw [createTask_eq db now1 b1 h], by rw [createTask_eq _ now2 b2 h2],
    by omega, ?_, h2, wf_createTask h2 now2 b2⟩
  intro t htm
  have := (h2.1 t htm).2
  omega

/-- Witness for C9: on the seeded database the first Create assigns id 4;
after deleting that task, the next Create assigns id 5 — strictly larger, the
deleted id 4 is not reused. -/
theorem claim_C9_ids_unique_increasing_witness :
    (createTask (initDatabase "t0" none) "t1" ⟨0, "A", "", "x", ""⟩).1.2 =
      Body.obj ⟨4, "A", "", "x", "t1"⟩ ∧
    (createTask (runOps (createTask (initDatabase "t0" none) "t1" ⟨0, "A", "", "x", ""⟩).2
        [Op.delete "4"]) "t2" ⟨0, "B", "", "y", ""⟩).1.2 =
      Body.obj ⟨5, "B", "", "y", "t2"⟩ ∧
    (4 : Nat) < 5 := by
  have h := claim_C9_ids_unique_increasing (initDatabase "t0" none) "t1" "t2"
    ⟨0, "A", "", "x", ""⟩ ⟨0, "B", "", "y", ""⟩ [Op.delete "4"] (by decide)
  exact ⟨h.1.trans (by decide), h.2.1.trans (by decide), by decide⟩

end TaskHub
